import Mathlib

/-!
Shallow embedding of the ARGO ingestion service
(`data_ingestion/services.py` together with the data model of
`data_ingestion/models.py`) and proofs about it.

Machine floats are modelled as exact rationals extended with the IEEE
special values `nan`, `inf`, `-inf` (type `PF`); real-valued library
calls (`np.sin`, `np.arcsin`, ...) are modelled over `ℝ` extended with
the same special values (type `RF`), with the IEEE propagation rules
(any operation on `nan` yields `nan`, trigonometric functions of an
infinity yield `nan`, ...).  Fallible Python code is modelled in
`Except Unit`; a raised exception is `.error ()`.  The relational store
is a pair of lists (profiles table, measurements table), and the
per-profile `transaction.atomic` block is modelled by discarding the
intermediate state when its body fails.
-/

/-- Decidable equality of exception results, used to evaluate the model
on concrete inputs. -/
instance {ε α : Type _} [DecidableEq ε] [DecidableEq α] : DecidableEq (Except ε α) :=
  fun x y =>
    match x, y with
    | .ok a, .ok b =>
        if h : a = b then .isTrue (by rw [h]) else .isFalse (by simp [h])
    | .error a, .error b =>
        if h : a = b then .isTrue (by rw [h]) else .isFalse (by simp [h])
    | .ok _, .error _ => .isFalse (by simp)
    | .error _, .ok _ => .isFalse (by simp)

/-- A Python / numpy double: an exact rational, or one of the IEEE special
values.  Rounding of the underlying binary64 format is not modelled; the
thresholds the code compares against are exactly representable. -/
inductive PF where
  | fin (q : ℚ)
  | nan
  | inf
  | ninf
deriving DecidableEq, Repr

/-- `np.isnan` on a scalar float. -/
def PF.isNanB : PF → Bool
  | .nan => true
  | _ => false

/-- `x` is a finite float. -/
def PF.finB : PF → Bool
  | .fin _ => true
  | _ => false

/-- Float comparison `a < b` (false whenever either side is NaN). -/
def PF.ltB : PF → PF → Bool
  | .fin a, .fin b => decide (a < b)
  | .fin _, .inf => true
  | .ninf, .fin _ => true
  | .ninf, .inf => true
  | _, _ => false

/-- Float comparison `a ≤ b` (false whenever either side is NaN). -/
def PF.leB : PF → PF → Bool
  | .fin a, .fin b => decide (a ≤ b)
  | .fin _, .inf => true
  | .ninf, _ => true
  | .inf, .inf => true
  | _, _ => false

/-- Float division by a positive rational constant (used for `/1e9`,
`/scale`). -/
def PF.divc (x : PF) (c : ℚ) : PF :=
  match x with
  | .fin q => .fin (q / c)
  | .nan => .nan
  | .inf => .inf
  | .ninf => .ninf

/-- A raw value held in a NetCDF variable cell, as the Python code sees it
after `.values` indexing: a float, a byte string, or (when a whole row of a
2-dimensional variable is selected) a sub-array. -/
inductive Elem where
  | fl (x : PF)
  | byt (s : String)
  | arrv (xs : List Elem)

/-- `str(x)` for the scalar values above; the exact rendering of numpy
values is irrelevant to every claim, only byte strings are ever decoded
into fields that the claims constrain. -/
def pyStr : Elem → String
  | .byt s => s
  | .fl (.fin q) => toString q
  | .fl .nan => "nan"
  | .fl .inf => "inf"
  | .fl .ninf => "-inf"
  | .arrv _ => "ndarray"

/-- Python `s.strip()`: drop leading and trailing whitespace. -/
def pyStrip (s : String) : String :=
  ⟨((s.data.dropWhile Char.isWhitespace).reverse.dropWhile Char.isWhitespace).reverse⟩

/-- `decode_bytes` (services.py 63-70): decode byte strings and strip
whitespace; any other value is rendered with `str` and stripped. -/
def decode_bytes (x : Elem) : String :=
  match x with
  | .byt s => pyStrip s
  | e => pyStrip (pyStr e)

/-- Python `float(x)`: floats pass through, byte strings raise
`TypeError`, a numpy array of size one converts to its single element,
any other array raises. -/
def tryFloat : Elem → Except Unit PF
  | .fl x => .ok x
  | .byt _ => .error ()
  | .arrv [e] => tryFloat e
  | .arrv _ => .error ()

/-- Python `int(x)` for the values reached by the code (the NaN case is
guarded before the call): rational floats truncate toward zero. -/
def pyInt : Elem → Except Unit Int
  | .fl (.fin q) => .ok (q.num / (q.den : Int))
  | .fl _ => .error ()
  | .byt _ => .error ()
  | .arrv [e] => pyInt e
  | .arrv _ => .error ()

/-- `np.isnan(x)` with Python truthiness of the result: floats answer
directly, byte strings raise `TypeError`, a size-one array answers for
its element, a larger array raises when used as a condition. -/
def isnanE : Elem → Except Unit Bool
  | .fl x => .ok x.isNanB
  | .byt _ => .error ()
  | .arrv [e] => isnanE e
  | .arrv _ => .error ()

/-- `.item()` on a value that may be an ndarray (only size-one arrays
convert; a larger array raises `ValueError`).  Non-arrays pass through. -/
def pyItem : Elem → Except Unit Elem
  | .arrv [e] => .ok e
  | .arrv _ => .error ()
  | e => .ok e

/-- Seconds from the UNIX epoch to `1950-01-01T00:00:00Z`
(the ARGO reference date is 631152000 s before the epoch). -/
def epoch1950 : ℚ := -631152000

/-- `datetime.utcfromtimestamp(s)`: a UTC instant, represented as exact
seconds since the UNIX epoch; raises (here: `none`) when the result
falls outside the representable calendar range (year 1 .. 9999). -/
def utcfromtimestamp (s : ℚ) : Option ℚ :=
  if -62135596800 ≤ s ∧ s < 253402300800 then some s else none

/-- `julian_to_datetime` (services.py 86-144).  Instants are exact
seconds since the UNIX epoch.  The outer `Except` is the `.item()` call
on a multi-element array, which happens before the function's own
`try` blocks and therefore escapes it; every other failure is caught
inside the function and becomes `None`. -/
def julian_to_datetime (juld_val : Option Elem) : Except Unit (Option ℚ) := do
  let v ← match juld_val with
    | none => pure (none : Option Elem)
    | some e => do
        let x ← pyItem e
        pure (some x)
  match v with
  | none => pure none
  | some e =>
    match tryFloat e with
    | .error _ => pure none          -- unparseable: logged, returns None
    | .ok x =>
      match x with
      | .nan => pure none
      | .inf =>
          -- inf > 1e17, but utcfromtimestamp(inf/1e9) raises OverflowError,
          -- which the surrounding except catches: returns None
          pure none
      | .ninf =>
          -- falls through every range test: logged warning, returns None
          pure none
      | .fin q =>
          if 0 ≤ q ∧ q ≤ 50000 then
            -- CASE 1: days since 1950-01-01 (timedelta cannot overflow here)
            pure (some (epoch1950 + 86400 * q))
          else if 100000000000000000 < q then
            -- CASE 2: nanoseconds since the UNIX epoch (1e17 < q)
            pure (utcfromtimestamp (q / 1000000000))
          else if 1000000000000 < q ∧ q < 100000000000000000 then
            -- CASE 3: milliseconds / microseconds (1e12 < q < 1e17)
            pure (utcfromtimestamp (q / (if q < 100000000000000 then 1000 else 1000000)))
          else
            pure none

/-- The decision ladder exactly as claim C3 words it: the third rung is
the half-open interval `(1e12, 1e17]`, so the value `1e17` itself decodes
as microseconds.  (Modelled from the claim, to be compared with
`julian_to_datetime`.) -/
def julianClaimLadder (q : ℚ) : Option ℚ :=
  if 0 ≤ q ∧ q ≤ 50000 then some (epoch1950 + 86400 * q)
  else if 100000000000000000 < q then utcfromtimestamp (q / 1000000000)
  else if 1000000000000 < q ∧ q ≤ 100000000000000000 then
    utcfromtimestamp (q / (if q < 100000000000000 then 1000 else 1000000))
  else none

/-- The amended ladder: as `julianClaimLadder` but with the third rung
open at `1e17`, exactly `1e17` being undecodable; on the special values
every epoch conversion overflows or no rung matches, giving `none`. -/
def julianAmended (juld_val : Option Elem) : Option ℚ :=
  match juld_val with
  | none => none
  | some e0 =>
    match pyItem e0 with
    | .error _ => none
    | .ok e =>
      match tryFloat e with
      | .error _ => none
      | .ok (.fin q) =>
          if 0 ≤ q ∧ q ≤ 50000 then some (epoch1950 + 86400 * q)
          else if 100000000000000000 < q then utcfromtimestamp (q / 1000000000)
          else if 1000000000000 < q ∧ q < 100000000000000000 then
            utcfromtimestamp (q / (if q < 100000000000000 then 1000 else 1000000))
          else none
      | .ok _ => none

/-- Inputs on which `.item()` does not raise: everything except a
multi-element array. -/
def NotMultiArr (v : Option Elem) : Prop :=
  match v with
  | some (.arrv xs) => xs.length = 1
  | _ => True

/-- An xarray variable of the opened dataset, at the granularity the code
inspects it: a 0-dimensional scalar, a 1-dimensional array (which may or
may not carry the `N_PROF` dimension), or a 2-dimensional array whose
first dimension is `N_PROF`.  `numeric` records whether the dtype is a
numpy number type (`np.issubdtype(dtype, np.number)`). -/
inductive Var where
  | scalar (e : Elem) (numeric : Bool)
  | vec (hasNProf : Bool) (xs : List Elem) (numeric : Bool)
  | mat (rows : List (List Elem)) (numeric : Bool)

/-- An opened NetCDF dataset: a mapping from variable names to variables,
and the size the `N_PROF` dimension has in `ds.sizes` (when present). -/
structure Dataset where
  vars : String → Option Var
  nprof : Option Nat

/-- `ds["name"]`, raising `KeyError` when absent. -/
def getVar (ds : Dataset) (name : String) : Except Unit Var :=
  match ds.vars name with
  | some v => .ok v
  | none => .error ()

/-- `safe_index` (services.py 72-84): scalar extraction from a variable,
0-dimensional values are returned directly, out-of-range indices give
NaN for numeric dtypes and `None` otherwise.  Indexing a 2-dimensional
variable yields the selected row as an array object. -/
def safe_index (var : Var) (i : Nat) : Option Elem :=
  match var with
  | .scalar e _ => some e
  | .vec _ xs numeric =>
      match xs.get? i with
      | some x => some x
      | none => if numeric then some (.fl .nan) else none
  | .mat rows numeric =>
      match rows.get? i with
      | some r => some (.arrv r)
      | none => if numeric then some (.fl .nan) else none

/-- `_extract_profile_array` (services.py 183-202): the flattened array of
a variable for profile `i`.  A multi-profile variable is sliced with
`isel(N_PROF=i)` (an out-of-range index raises); a variable without the
`N_PROF` dimension, or with `N_PROF` of size one, is flattened whole. -/
def extract_profile_array (ds : Dataset) (var_name : String) (i : Nat) :
    Except Unit (List Elem) :=
  match ds.vars var_name with
  | none => .error ()                      -- KeyError
  | some v =>
    match v with
    | .scalar e _ => .ok [e]
    | .vec hasNProf xs _ =>
        if hasNProf then
          if xs.length > 1 then
            match xs.get? i with
            | some x => .ok [x]
            | none => .error ()            -- IndexError from isel
          else if xs.length = 1 then .ok xs
          else .error ()                   -- N_PROF of size 0: ValueError
        else .ok xs
    | .mat rows _ =>
        if rows.length > 1 then
          match rows.get? i with
          | some r => .ok r
          | none => .error ()
        else if rows.length = 1 then .ok rows.flatten
        else .error ()                     -- N_PROF of size 0: ValueError

/-- The default missing marker: the `b'9'` byte flag for quality-control
arrays, NaN otherwise. -/
def defaultMarker (is_qc_flag : Bool) : Elem :=
  if is_qc_flag then .byt "9" else .fl .nan

/-- `get_array_or_default` (services.py 205-257): the array for a
variable, or a default array of the reference length (taken from `PRES`
at the same index) when the variable is missing, unextractable or
length-mismatched; a length-one default when `PRES` itself is
unextractable. -/
def get_array_or_default (ds : Dataset) (var_name : String) (i : Nat)
    (is_qc_flag : Bool) : List Elem :=
  match extract_profile_array ds "PRES" i with
  | .error _ => [defaultMarker is_qc_flag]
  | .ok pres_arr =>
    match extract_profile_array ds var_name i with
    | .ok arr =>
        if arr.length = pres_arr.length then arr
        else List.replicate pres_arr.length (defaultMarker is_qc_flag)
    | .error _ => List.replicate pres_arr.length (defaultMarker is_qc_flag)

/-- Whether the character list `p` occurs at the head of `s`. -/
def startsWithL (s p : List Char) : Bool :=
  match s, p with
  | _, [] => true
  | [], _ :: _ => false
  | a :: as, b :: bs => a == b && startsWithL as bs

/-- Whether the character list `p` occurs anywhere inside `s`
(Python `p in s`). -/
def hasSubL (s p : List Char) : Bool :=
  match s with
  | [] => p.isEmpty
  | _ :: rest => startsWithL s p || hasSubL rest p

/-- Python `pat in s` on strings. -/
def strHasSub (s pat : String) : Bool := hasSubL s.data pat.data

/-- Python `s.endswith(suf)`. -/
def strEndsWith (s suf : String) : Bool :=
  startsWithL s.data.reverse suf.data.reverse

/-- A numpy double during the haversine computation: exact real values
extended with the IEEE special values.  Reals are needed because the
distance passes through `sin`, `cos`, `sqrt` and `arcsin`. -/
inductive RF where
  | fin (x : ℝ)
  | nan
  | inf
  | ninf

/-- Embedding of a machine float into the real-extended carrier. -/
noncomputable def PF.toRF : PF → RF
  | .fin q => .fin (q : ℝ)
  | .nan => .nan
  | .inf => .inf
  | .ninf => .ninf

/-- IEEE subtraction. -/
noncomputable def RF.sub : RF → RF → RF
  | .fin a, .fin b => .fin (a - b)
  | .fin _, .inf => .ninf
  | .fin _, .ninf => .inf
  | .inf, .fin _ => .inf
  | .ninf, .fin _ => .ninf
  | .inf, .ninf => .inf
  | .ninf, .inf => .ninf
  | .inf, .inf => .nan
  | .ninf, .ninf => .nan
  | _, _ => .nan

/-- IEEE addition. -/
noncomputable def RF.add : RF → RF → RF
  | .fin a, .fin b => .fin (a + b)
  | .fin _, .inf => .inf
  | .fin _, .ninf => .ninf
  | .inf, .fin _ => .inf
  | .ninf, .fin _ => .ninf
  | .inf, .inf => .inf
  | .ninf, .ninf => .ninf
  | .inf, .ninf => .nan
  | .ninf, .inf => .nan
  | _, _ => .nan

/-- IEEE multiplication (`0 * ±inf = nan`). -/
noncomputable def RF.mul : RF → RF → RF
  | .fin a, .fin b => .fin (a * b)
  | .fin a, .inf => if 0 < a then .inf else if a < 0 then .ninf else .nan
  | .fin a, .ninf => if 0 < a then .ninf else if a < 0 then .inf else .nan
  | .inf, .fin b => if 0 < b then .inf else if b < 0 then .ninf else .nan
  | .ninf, .fin b => if 0 < b then .ninf else if b < 0 then .inf else .nan
  | .inf, .inf => .inf
  | .ninf, .ninf => .inf
  | .inf, .ninf => .ninf
  | .ninf, .inf => .ninf
  | _, _ => .nan

/-- `x ** 2` on a numpy double: NaN squares to NaN, infinities to
`inf`. -/
noncomputable def RF.sq : RF → RF
  | .fin x => .fin (x ^ 2)
  | .nan => .nan
  | .inf => .inf
  | .ninf => .inf

/-- Multiplication by a positive real constant (`2 * R * _`, with
`R = 6371`). -/
noncomputable def RF.cmulPos (c : ℝ) : RF → RF
  | .fin x => .fin (c * x)
  | .nan => .nan
  | .inf => .inf
  | .ninf => .ninf

/-- `np.radians`: multiplication by the positive constant `π / 180`. -/
noncomputable def RF.radians : RF → RF := RF.cmulPos (Real.pi / 180)

/-- Division by the positive constant `2`. -/
noncomputable def RF.half : RF → RF
  | .fin x => .fin (x / 2)
  | .nan => .nan
  | .inf => .inf
  | .ninf => .ninf

/-- `np.sin`: NaN on every non-finite argument. -/
noncomputable def RF.sin : RF → RF
  | .fin x => .fin (Real.sin x)
  | _ => .nan

/-- `np.cos`: NaN on every non-finite argument. -/
noncomputable def RF.cos : RF → RF
  | .fin x => .fin (Real.cos x)
  | _ => .nan

/-- `np.sqrt`: NaN on negative and NaN arguments. -/
noncomputable def RF.sqrt : RF → RF
  | .fin x => if x < 0 then .nan else .fin (Real.sqrt x)
  | .inf => .inf
  | _ => .nan

/-- `np.arcsin`: NaN outside `[-1, 1]` and on every non-finite argument. -/
noncomputable def RF.arcsin : RF → RF
  | .fin x => if x < -1 ∨ 1 < x then .nan else .fin (Real.arcsin x)
  | _ => .nan

/-- Float comparison `a < b`; false whenever either side is NaN. -/
def RF.ltP : RF → RF → Prop
  | .fin a, .fin b => a < b
  | .fin _, .inf => True
  | .ninf, .fin _ => True
  | .ninf, .inf => True
  | _, _ => False

noncomputable instance (a b : RF) : Decidable (RF.ltP a b) :=
  Classical.propDecidable _

/-- `haversine_distance` (services.py 162-168), composed from the numpy
operations exactly as in the source; the squares are written as
self-multiplications. -/
noncomputable def haversine_distance (lat1 lon1 lat2 lon2 : PF) : RF :=
  let dlat := RF.radians (RF.sub lat2.toRF lat1.toRF)
  let dlon := RF.radians (RF.sub lon2.toRF lon1.toRF)
  let a := RF.add (RF.sq (RF.sin (RF.half dlat)))
      (RF.mul (RF.mul (RF.cos (RF.radians lat1.toRF)) (RF.cos (RF.radians lat2.toRF)))
        (RF.sq (RF.sin (RF.half dlon))))
  RF.cmulPos (2 * 6371) (RF.arcsin (RF.sqrt a))

/-- `OCEAN_COORDS` (services.py 149-160), in the dict's insertion order. -/
def OCEAN_COORDS : List (String × ℚ × ℚ) :=
  [("Pacific Ocean", 0, -160),
   ("Atlantic Ocean", 0, -30),
   ("Indian Ocean", -20, 80),
   ("Southern Ocean", -60, 0),
   ("Arctic Ocean", 75, 0),
   ("Arabian Sea", 15, 65),
   ("Bay of Bengal", 15, 90),
   ("Mediterranean Sea", 35, 18),
   ("Caribbean Sea", 15, -75),
   ("Bering Sea", 60, -180)]

/-- The `for ocean, coords in OCEAN_COORDS.items()` loop of
`get_nearest_ocean`, carrying the `(nearest, min_dist)` accumulator. -/
noncomputable def oceanLoop (lat lon : PF) :
    List (String × ℚ × ℚ) → String × RF → String × RF
  | [], acc => acc
  | (ocean, cla, clo) :: rest, (nearest, min_dist) =>
      let d := haversine_distance lat lon (.fin cla) (.fin clo)
      oceanLoop lat lon rest
        (if RF.ltP d min_dist then (ocean, d) else (nearest, min_dist))

/-- `get_nearest_ocean` (services.py 170-181). -/
noncomputable def get_nearest_ocean (lat lon : PF) : String :=
  if lat.isNanB || lon.isNanB then "Unknown"
  else (oceanLoop lat lon OCEAN_COORDS ("Unknown", RF.inf)).1

/-- The haversine great-circle distance on a mean Earth radius of
6371 km, as the spec words it, as a plain real number (modelled from the
spec for comparison with the loop above). -/
noncomputable def havReal (lat1 lon1 lat2 lon2 : ℚ) : ℝ :=
  2 * 6371 * Real.arcsin (Real.sqrt
    (Real.sin (Real.pi / 180 * ((lat2 : ℝ) - (lat1 : ℝ)) / 2) ^ 2 +
      Real.cos (Real.pi / 180 * (lat1 : ℝ)) * Real.cos (Real.pi / 180 * (lat2 : ℝ)) *
        Real.sin (Real.pi / 180 * ((lon2 : ℝ) - (lon1 : ℝ)) / 2) ^ 2))

/-- `name` is the label of the entry of `OCEAN_COORDS` nearest to
`(lat, lon)` by `havReal`, ties broken by iteration order: the spec's
characterisation of `get_nearest_ocean` on finite coordinates. -/
def nearestBySpec (lat lon : ℚ) (name : String) : Prop :=
  ∃ j e, OCEAN_COORDS.get? j = some e ∧ name = e.1 ∧
    (∀ k e', OCEAN_COORDS.get? k = some e' →
      havReal lat lon e.2.1 e.2.2 ≤ havReal lat lon e'.2.1 e'.2.2) ∧
    (∀ k e', k < j → OCEAN_COORDS.get? k = some e' →
      havReal lat lon e.2.1 e.2.2 < havReal lat lon e'.2.1 e'.2.2)

/-- A row of the profile header table (the model the ingestion writes
through, `ArgoProfileData`; its unique key is
`(platform_number, cycle_number)`, cf. `ArgoProfile.Meta.unique_together`
in models.py).  `juld_date` is the decoded instant or absent. -/
structure Profile where
  platform_number : String
  cycle_number : Int
  juld_date : Option ℚ
  latitude : PF
  longitude : PF
  ocean_name : String
  data_mode : String
  data_centre_ref : String
deriving DecidableEq

/-- A row of the measurement table (`ArgoMeasurement`), keyed by its
parent profile's `(platform_number, cycle_number)`. -/
structure Meas where
  profile_key : String × Int
  pressure : PF
  temperature : Option PF
  temperature_adjusted : Option PF
  salinity : Option PF
  salinity_adjusted : Option PF
  pres_qc : String
  temp_qc : String
  psal_qc : String
deriving DecidableEq

/-- The relational store: the two tables of §3 of the spec. -/
structure DB where
  profiles : List Profile
  measurements : List Meas
deriving DecidableEq

/-- `ArgoProfileData.objects.filter(platform_number=…, cycle_number=…)
.exists()`. -/
def keyMem (db : DB) (p : String) (c : Int) : Bool :=
  db.profiles.any (fun r => r.platform_number == p && r.cycle_number == c)

/-- Steps 1 of the per-profile loop (services.py 283-296): decode
`platform_number` and `cycle_number`.  `.ok none` is the identity skip
(`continue`) for a missing platform, empty platform or sentinel cycle;
`.error` is a raised exception (caught by the per-profile handler). -/
def extractIdentity (ds : Dataset) (i : Nat) :
    Except Unit (Option (String × Int)) := do
  let pvar ← getVar ds "PLATFORM_NUMBER"
  let platform_number_raw := safe_index pvar i
  let platform_number : Option String := platform_number_raw.map decode_bytes
  let cvar ← getVar ds "CYCLE_NUMBER"
  let cycle_number_raw := safe_index cvar i
  let cycle_number : Int ←
    match cycle_number_raw with
    | none => pure (-999)
    | some e => do
        let f ← tryFloat e
        if f.isNanB then pure (-999) else pyInt e
  match platform_number with
  | none => pure none
  | some p =>
      if p = "" ∨ cycle_number = -999 then pure none
      else pure (some (p, cycle_number))

/-- The decoded non-identity fields of one profile
(services.py 299-317). -/
structure Fields where
  lat : PF
  lon : PF
  ocean_name : String
  juld_date : Option ℚ
  data_mode : String
  pres_arr : List Elem
  temp_arr : List Elem
  temp_adj_arr : List Elem
  sal_arr : List Elem
  sal_adj_arr : List Elem
  pres_qc_arr : List Elem
  temp_qc_arr : List Elem
  psal_qc_arr : List Elem

/-- `float(safe_index(var, i))`: `float(None)` raises `TypeError`. -/
def floatOfIndex (v : Option Elem) : Except Unit PF :=
  match v with
  | none => .error ()
  | some e => tryFloat e

/-- Step 2 of the per-profile loop (services.py 299-317): decode the
scalar fields (`ds["…"]` raises `KeyError` when a variable is missing)
and extract all level arrays.  `data_mode` defaults to `"R"` only when
`safe_index` produced `None`. -/
noncomputable def extractFields (ds : Dataset) (i : Nat) : Except Unit Fields := do
  let latv ← getVar ds "LATITUDE"
  let lat ← floatOfIndex (safe_index latv i)
  let lonv ← getVar ds "LONGITUDE"
  let lon ← floatOfIndex (safe_index lonv i)
  let ocean_name := get_nearest_ocean lat lon
  let juldv ← getVar ds "JULD"
  let juld_date ← julian_to_datetime (safe_index juldv i)
  let dmv ← getVar ds "DATA_MODE"
  let data_mode :=
    match safe_index dmv i with
    | some e => decode_bytes e
    | none => "R"
  pure
    { lat := lat
      lon := lon
      ocean_name := ocean_name
      juld_date := juld_date
      data_mode := data_mode
      pres_arr := get_array_or_default ds "PRES" i false
      temp_arr := get_array_or_default ds "TEMP" i false
      temp_adj_arr := get_array_or_default ds "TEMP_ADJUSTED" i false
      sal_arr := get_array_or_default ds "PSAL" i false
      sal_adj_arr := get_array_or_default ds "PSAL_ADJUSTED" i false
      pres_qc_arr := get_array_or_default ds "PRES_QC" i true
      temp_qc_arr := get_array_or_default ds "TEMP_QC" i true
      psal_qc_arr := get_array_or_default ds "PSAL_QC" i true }

/-- `arr[level]` inside the measurement loop: raises `IndexError` out of
range. -/
def getE (xs : List Elem) (level : Nat) : Except Unit Elem :=
  match xs.get? level with
  | some e => .ok e
  | none => .error ()

/-- `float(arr[level]) if not np.isnan(arr[level]) else None` for the
optional numeric fields of a measurement. -/
def optVal (xs : List Elem) (level : Nat) : Except Unit (Option PF) := do
  let e ← getE xs level
  let b ← isnanE e
  if b then pure none
  else do
    let v ← tryFloat e
    pure (some v)

/-- The measurement-building loop (services.py 333-362) over the given
level indices: a level is emitted only when its pressure entry is
non-NaN.  Any raised exception (`np.isnan` on a byte value, an
out-of-range level, ...) escapes to the transaction. -/
def buildLoop (key : String × Int) (f : Fields) :
    List Nat → Except Unit (List Meas)
  | [] => .ok []
  | level :: rest => do
      let pe ← getE f.pres_arr level
      let pnan ← isnanE pe
      if pnan then buildLoop key f rest
      else do
        let pres_qc_e ← getE f.pres_qc_arr level
        let temp_qc_e ← getE f.temp_qc_arr level
        let psal_qc_e ← getE f.psal_qc_arr level
        let temp_val ← optVal f.temp_arr level
        let temp_adj_val ← optVal f.temp_adj_arr level
        let sal_val ← optVal f.sal_arr level
        let sal_adj_val ← optVal f.sal_adj_arr level
        let pressure ← tryFloat pe
        let ms ← buildLoop key f rest
        pure
          ({ profile_key := key
             pressure := pressure
             temperature := temp_val
             temperature_adjusted := temp_adj_val
             salinity := sal_val
             salinity_adjusted := sal_adj_val
             pres_qc := decode_bytes pres_qc_e
             temp_qc := decode_bytes temp_qc_e
             psal_qc := decode_bytes psal_qc_e } :: ms)

/-- The profile header row built at services.py 321-330. -/
def mkProfile (p : String) (c : Int) (f : Fields) : Profile :=
  { platform_number := p
    cycle_number := c
    juld_date := f.juld_date
    latitude := f.lat
    longitude := f.lon
    ocean_name := f.ocean_name
    data_mode := f.data_mode
    data_centre_ref := p ++ "-" ++ toString c }

/-- The body of `with transaction.atomic():` (services.py 320-368):
create the header row, build the measurement batch, bulk-insert it when
non-empty.  `failCreate` / `failBulk` inject a persistence failure of
`objects.create` / `bulk_create` at a given profile index; any `.error`
makes the surrounding `atomic` discard every write of the block. -/
def txnBody (p : String) (c : Int) (f : Fields)
    (failCreate failBulk : Nat → Bool) (db : DB) (i : Nat) :
    Except Unit (DB × Nat) := do
  if failCreate i then .error () else
  let profile := mkProfile p c f
  let db1 : DB := { profiles := db.profiles ++ [profile],
                    measurements := db.measurements }
  let current_measurements ← buildLoop (p, c) f (List.range f.pres_arr.length)
  match current_measurements with
  | [] => pure (db1, 0)
  | ms =>
      if failBulk i then .error ()
      else pure ({ profiles := db1.profiles,
                   measurements := db1.measurements ++ ms },
                 ms.length)

/-- One iteration of the per-profile loop of
`process_single_netcdf_file` (services.py 279-373), including its
`except` handler: any exception rolls the transaction back and leaves
the store unchanged. -/
noncomputable def stepBody (ds : Dataset) (failCreate failBulk : Nat → Bool)
    (db : DB) (i : Nat) : Except Unit (DB × Nat) := do
  let idv ← extractIdentity ds i
  match idv with
  | none => pure (db, 0)                      -- identity skip
  | some (p, c) =>
      if keyMem db p c then pure (db, 0)      -- duplicate: skip
      else do
        let f ← extractFields ds i
        txnBody p c f failCreate failBulk db i

/-- The per-profile step with the exception handler applied: a raised
exception is logged and processing continues, the store unchanged. -/
noncomputable def stepFn (ds : Dataset) (failCreate failBulk : Nat → Bool)
    (db : DB) (i : Nat) : DB × Nat :=
  match stepBody ds failCreate failBulk db i with
  | .ok r => r
  | .error _ => (db, 0)

/-- The profile loop over the given indices, accumulating
`total_measurements_saved`. -/
noncomputable def processFrom (ds : Dataset) (failCreate failBulk : Nat → Bool) :
    DB → List Nat → DB × Nat
  | db, [] => (db, 0)
  | db, i :: rest =>
      let r := stepFn ds failCreate failBulk db i
      let r' := processFrom ds failCreate failBulk r.1 rest
      (r'.1, r.2 + r'.2)

/-- `n_profiles = ds.sizes.get("N_PROF", 1)`. -/
def nProfiles (ds : Dataset) : Nat := ds.nprof.getD 1

/-- The whole per-file profile loop. -/
noncomputable def processProfiles (ds : Dataset) (failCreate failBulk : Nat → Bool)
    (db : DB) : DB × Nat :=
  processFrom ds failCreate failBulk db (List.range (nProfiles ds))

/-- `process_single_netcdf_file` (services.py 262-379).  The argument is
the result of parsing the downloaded bytes: `none` when
`xr.open_dataset` raises, in which case the function logs and returns
zero. -/
noncomputable def process_single_netcdf_file (content : Option Dataset)
    (failCreate failBulk : Nat → Bool) (db : DB) : DB × Nat :=
  match content with
  | none => (db, 0)
  | some ds => processProfiles ds failCreate failBulk db

/-- The network: what `recursive_nc_files` yields for a directory URL
(`none` when the crawl raises), and what downloading a URL returns
(`none` when the request fails; otherwise the parse result of the
received bytes). -/
structure Net where
  crawl : String → Option (List String)
  download : String → Option (Option Dataset)

/-- The file filter of the coordinator's loop (services.py 406):
`"_prof.nc" in url or "/profiles/" in url`. -/
def urlProfPat (url : String) : Bool :=
  strHasSub url "_prof.nc" || strHasSub url "/profiles/"

/-- The observable outcome of one coordinator call: the URLs for which a
download was attempted, the final store, and the returned measurement
count. -/
structure IngOut where
  downloads : List String
  db : DB
  total : Nat
deriving DecidableEq

/-- The download-and-process loop of `coordinate_argo_ingestion`
(services.py 405-418): only URLs matching the profile-file pattern are
downloaded; a failed download is logged and skipped. -/
noncomputable def processUrlList (net : Net) (failCreate failBulk : Nat → Bool) :
    DB → List String → IngOut
  | db, [] => { downloads := [], db := db, total := 0 }
  | db, url :: rest =>
      if urlProfPat url then
        match net.download url with
        | none =>
            let r := processUrlList net failCreate failBulk db rest
            { downloads := url :: r.downloads, db := r.db, total := r.total }
        | some content =>
            let s := process_single_netcdf_file content failCreate failBulk db
            let r := processUrlList net failCreate failBulk s.1 rest
            { downloads := url :: r.downloads, db := r.db,
              total := s.2 + r.total }
      else processUrlList net failCreate failBulk db rest

/-- `coordinate_argo_ingestion` (services.py 383-420). -/
noncomputable def coordinate_argo_ingestion (net : Net)
    (failCreate failBulk : Nat → Bool) (db : DB) (base_url : String) : IngOut :=
  if strEndsWith base_url ".nc" then
    processUrlList net failCreate failBulk db [base_url]
  else if strEndsWith base_url "/" then
    match net.crawl base_url with
    | none => { downloads := [], db := db, total := 0 }
    | some urls => processUrlList net failCreate failBulk db urls
  else { downloads := [], db := db, total := 0 }

/-- The no-failure persistence oracle. -/
def noFail : Nat → Bool := fun _ => false

/-- The oracle that fails every `objects.create`. -/
def allFailCreate : Nat → Bool := fun _ => true

/-- The empty store. -/
def emptyDB : DB := { profiles := [], measurements := [] }

/-- A single-profile dataset with a decodable identity, NaN coordinates
and timestamp, and an all-NaN pressure array: its profile header is
storable but it carries no valid level. -/
def dsNanPres : Dataset :=
  { vars := fun n =>
      if n = "PLATFORM_NUMBER" then some (.vec true [.byt "190"] false)
      else if n = "CYCLE_NUMBER" then some (.vec true [.fl (.fin 3)] true)
      else if n = "LATITUDE" then some (.vec true [.fl .nan] true)
      else if n = "LONGITUDE" then some (.vec true [.fl .nan] true)
      else if n = "JULD" then some (.vec true [.fl .nan] true)
      else if n = "DATA_MODE" then some (.vec true [.byt "R"] false)
      else if n = "PRES" then some (.vec false [.fl .nan] true)
      else none,
    nprof := some 1 }

/-- The non-identity fields `extractFields` produces for `dsNanPres` at
index 0: everything degraded to its missing marker. -/
def fieldsNanPres : Fields :=
  { lat := .nan
    lon := .nan
    ocean_name := "Unknown"
    juld_date := none
    data_mode := "R"
    pres_arr := [.fl .nan]
    temp_arr := [.fl .nan]
    temp_adj_arr := [.fl .nan]
    sal_arr := [.fl .nan]
    sal_adj_arr := [.fl .nan]
    pres_qc_arr := [.byt "9"]
    temp_qc_arr := [.byt "9"]
    psal_qc_arr := [.byt "9"] }

/-- A dataset with a decodable identity but no `LATITUDE` variable at
all (every other referenced variable is present). -/
def dsNoLat : Dataset :=
  { vars := fun n =>
      if n = "PLATFORM_NUMBER" then some (.vec true [.byt "191"] false)
      else if n = "CYCLE_NUMBER" then some (.vec true [.fl (.fin 5)] true)
      else if n = "LONGITUDE" then some (.vec true [.fl (.fin 10)] true)
      else if n = "JULD" then some (.vec true [.fl (.fin 100)] true)
      else if n = "DATA_MODE" then some (.vec true [.byt "R"] false)
      else if n = "PRES" then some (.vec false [.fl (.fin 7)] true)
      else none,
    nprof := some 1 }

/-- A two-profile dataset whose second profile has a decodable identity
but malformed non-identity values: undersized `LATITUDE`/`LONGITUDE`
(numeric, so indexing degrades to NaN), an undecodable `JULD` value,
an undersized non-numeric `DATA_MODE` (degrades to `None`), and no
`PRES` variable. -/
def dsDegraded : Dataset :=
  { vars := fun n =>
      if n = "PLATFORM_NUMBER" then some (.vec true [.byt "192", .byt "192"] false)
      else if n = "CYCLE_NUMBER" then some (.vec true [.fl (.fin 1), .fl (.fin 2)] true)
      else if n = "LATITUDE" then some (.vec true [.fl (.fin 10)] true)
      else if n = "LONGITUDE" then some (.vec true [.fl (.fin 20)] true)
      else if n = "JULD" then some (.vec true [.fl (.fin 60001), .fl (.fin 60001)] true)
      else if n = "DATA_MODE" then some (.vec true [.byt "D"] false)
      else none,
    nprof := some 2 }

/-- The degraded fields of `dsDegraded` at index 1. -/
def fieldsDegraded : Fields :=
  { lat := .nan
    lon := .nan
    ocean_name := "Unknown"
    juld_date := none
    data_mode := "R"
    pres_arr := [.fl .nan]
    temp_arr := [.fl .nan]
    temp_adj_arr := [.fl .nan]
    sal_arr := [.fl .nan]
    sal_adj_arr := [.fl .nan]
    pres_qc_arr := [.byt "9"]
    temp_qc_arr := [.byt "9"]
    psal_qc_arr := [.byt "9"]}

/-- A network on which every download succeeds and parses to
`dsNanPres`, but directory crawls fail. -/
def netConst : Net :=
  { crawl := fun _ => none
    download := fun _ => some (some dsNanPres) }

@[simp] theorem exceptBind_ok {α β : Type _} (a : α) (f : α → Except Unit β) :
    (Except.ok a >>= f) = f a := rfl

@[simp] theorem exceptBind_error {α β : Type _} (f : α → Except Unit β) :
    ((Except.error () : Except Unit α) >>= f) = Except.error () := rfl

@[simp] theorem exceptPure_eq {α : Type _} (a : α) :
    (pure a : Except Unit α) = Except.ok a := rfl

/-- Claim C3 counterexample: the code sends the value exactly `1e17` to
the undecodable result, while the claim's half-open ladder decodes it as
microseconds since the epoch (`1e11` seconds). -/
theorem c3_boundary_cex :
    julian_to_datetime (some (.fl (.fin 100000000000000000))) = .ok none ∧
      julianClaimLadder 100000000000000000 = some 100000000000 := by
  constructor
  · decide
  · simp [julianClaimLadder, utcfromtimestamp]
    norm_num

/-- Claim C3 (amended): on every input whose `.item()` conversion does
not raise (everything but a multi-element array), `julian_to_datetime`
never raises and follows the decision ladder with the third rung open at
`1e17`: days since 1950 on `[0, 50000]`, nanoseconds above `1e17`,
milliseconds/microseconds strictly inside `(1e12, 1e17)`, and the
undecodable result (absent) everywhere else, including NaN and
unparseable values. -/
theorem c3_ladder (v : Option Elem) (h : NotMultiArr v) :
    julian_to_datetime v = .ok (julianAmended v) := by
  match v with
  | none => rfl
  | some (.fl x) =>
      cases x <;>
        simp only [julian_to_datetime, julianAmended, pyItem, tryFloat,
          exceptPure_eq, exceptBind_ok] <;>
        (first
          | rfl
          | (split_ifs <;> rfl))
  | some (.byt s) => rfl
  | some (.arrv xs) =>
      match xs, h with
      | [e], _ =>
          simp only [julian_to_datetime, julianAmended, pyItem,
            exceptPure_eq, exceptBind_ok]
          cases htf : tryFloat e with
          | error u => simp [htf]
          | ok x =>
              simp only [htf]
              cases x <;> dsimp only <;>
                (first
                  | rfl
                  | (split_ifs <;> rfl))

/-- Witness for C3 at the concrete input `5` (a plain day counter). -/
theorem c3_ladder_witness :
    julian_to_datetime (some (.fl (.fin 5))) =
      .ok (julianAmended (some (.fl (.fin 5)))) :=
  c3_ladder (some (.fl (.fin 5))) trivial

/-- Claim C7: `get_array_or_default` always returns an array of the
reference length (the length of the `PRES` extraction at the same
index); when the requested field is missing or length-mismatched the
result is a fresh array of that length filled with the missing marker
(`b'9'` for QC fields, NaN otherwise); and when `PRES` itself is
unextractable the result is the length-one default array. -/
theorem c7_array_extractor (ds : Dataset) (name : String) (i : Nat)
    (qc : Bool) :
    (∀ pres, extract_profile_array ds "PRES" i = .ok pres →
      (get_array_or_default ds name i qc).length = pres.length ∧
      (extract_profile_array ds name i = .error () →
        get_array_or_default ds name i qc =
          List.replicate pres.length (defaultMarker qc)) ∧
      (∀ arr, extract_profile_array ds name i = .ok arr →
        arr.length ≠ pres.length →
        get_array_or_default ds name i qc =
          List.replicate pres.length (defaultMarker qc))) ∧
    (extract_profile_array ds "PRES" i = .error () →
      get_array_or_default ds name i qc = [defaultMarker qc]) := by
  constructor
  · intro pres hp
    have hlen : ∀ arr : List Elem,
        (List.replicate pres.length (defaultMarker qc)).length = pres.length :=
      fun _ => List.length_replicate _ _
    cases ha : extract_profile_array ds name i with
    | error u =>
        refine ⟨?_, fun _ => ?_, fun arr harr => by simp_all⟩ <;>
          simp [get_array_or_default, hp, ha]
    | ok arr =>
        by_cases hl : arr.length = pres.length
        · refine ⟨?_, fun hcontra => by simp_all, fun arr' harr' hne => by simp_all⟩
          simp [get_array_or_default, hp, ha, hl]
        · refine ⟨?_, fun hcontra => by simp_all, fun arr' harr' hne => ?_⟩ <;>
            simp [get_array_or_default, hp, ha, hl]
  · intro hp
    simp [get_array_or_default, hp]

/-- Witness for C7: on `dsNanPres` the reference `PRES` array at index 0
has length one, and the missing `TEMP` field is defaulted to it. -/
theorem c7_array_extractor_witness :
    (get_array_or_default dsNanPres "TEMP" 0 false).length =
        [Elem.fl PF.nan].length ∧
      (extract_profile_array dsNanPres "TEMP" 0 = .error () →
        get_array_or_default dsNanPres "TEMP" 0 false =
          List.replicate [Elem.fl PF.nan].length (defaultMarker false)) ∧
      (∀ arr, extract_profile_array dsNanPres "TEMP" 0 = .ok arr →
        arr.length ≠ [Elem.fl PF.nan].length →
        get_array_or_default dsNanPres "TEMP" 0 false =
          List.replicate [Elem.fl PF.nan].length (defaultMarker false)) :=
  (c7_array_extractor dsNanPres "TEMP" 0 false).1 [Elem.fl PF.nan] rfl

theorem float_nonnan : ∀ (e : Elem) (v : PF),
    isnanE e = .ok false → tryFloat e = .ok v → v ≠ PF.nan
  | .fl x, v, h1, h2 => by
      cases x with
      | nan => exact absurd h1 (by simp [isnanE, PF.isNanB])
      | fin q => injection h2 with h2; subst h2; simp
      | inf => injection h2 with h2; subst h2; simp
      | ninf => injection h2 with h2; subst h2; simp
  | .byt s, _, h1, _ => Except.noConfusion h1
  | .arrv [e], v, h1, h2 =>
      float_nonnan e v (by simpa [isnanE] using h1) (by simpa [tryFloat] using h2)
  | .arrv [], _, h1, _ => Except.noConfusion h1
  | .arrv (_ :: _ :: _), _, h1, _ => Except.noConfusion h1

theorem bind_ok_inv {α β : Type _} {e : Except Unit α} {k : α → Except Unit β}
    {b : β} (h : (e >>= k) = .ok b) : ∃ a, e = .ok a ∧ k a = .ok b := by
  cases e with
  | ok a => exact ⟨a, rfl, h⟩
  | error u => cases u; exact Except.noConfusion h

theorem buildLoop_pressure (key : String × Int) (f : Fields) :
    ∀ (L : List Nat) (ms : List Meas), buildLoop key f L = .ok ms →
      ∀ m ∈ ms, m.pressure ≠ PF.nan := by
  intro L
  induction L with
  | nil =>
      intro ms h m hm
      simp only [buildLoop] at h
      cases h
      simp at hm
  | cons level rest ih =>
      intro ms h m hm
      simp only [buildLoop] at h
      obtain ⟨pe, hpe, h⟩ := bind_ok_inv h
      obtain ⟨pnan, hnan, h⟩ := bind_ok_inv h
      cases pnan with
      | true =>
          simp only [if_true] at h
          exact ih ms (by simpa using h) m hm
      | false =>
          simp only [Bool.false_eq_true, if_false] at h
          obtain ⟨qc1, _, h⟩ := bind_ok_inv h
          obtain ⟨qc2, _, h⟩ := bind_ok_inv h
          obtain ⟨qc3, _, h⟩ := bind_ok_inv h
          obtain ⟨tv, _, h⟩ := bind_ok_inv h
          obtain ⟨tav, _, h⟩ := bind_ok_inv h
          obtain ⟨sv, _, h⟩ := bind_ok_inv h
          obtain ⟨sav, _, h⟩ := bind_ok_inv h
          obtain ⟨v, hv, h⟩ := bind_ok_inv h
          obtain ⟨ms', hms', h⟩ := bind_ok_inv h
          simp only [exceptPure_eq, Except.ok.injEq] at h
          subst h
          rcases List.mem_cons.mp hm with hhead | htail
          · subst hhead
            exact float_nonnan pe v hnan hv
          · exact ih ms' hms' m htail

theorem txnBody_char (p : String) (c : Int) (f : Fields)
    (fc fb : Nat → Bool) (i : Nat) :
    (∀ db, txnBody p c f fc fb db i = .error ()) ∨
    ∃ ms, buildLoop (p, c) f (List.range f.pres_arr.length) = .ok ms ∧
      ∀ db, txnBody p c f fc fb db i =
        .ok ({ profiles := db.profiles ++ [mkProfile p c f],
               measurements := db.measurements ++ ms }, ms.length) := by
  cases hfc : fc i with
  | true => left; intro db; simp [txnBody, hfc]
  | false =>
    cases hbl : buildLoop (p, c) f (List.range f.pres_arr.length) with
    | error u => cases u; left; intro db; simp [txnBody, hfc, hbl]
    | ok ms =>
      cases ms with
      | nil =>
          right
          exact ⟨[], rfl, fun db => by simp [txnBody, hfc, hbl]⟩
      | cons m tl =>
          cases hfb : fb i with
          | true => left; intro db; simp [txnBody, hfc, hbl, hfb]
          | false =>
              right
              exact ⟨m :: tl, rfl, fun db => by simp [txnBody, hfc, hbl, hfb]⟩

theorem step_char (ds : Dataset) (fc fb : Nat → Bool) (i : Nat) :
    (∀ db, stepFn ds fc fb db i = (db, 0)) ∨
    ∃ p c f ms, extractIdentity ds i = .ok (some (p, c)) ∧
      extractFields ds i = .ok f ∧
      buildLoop (p, c) f (List.range f.pres_arr.length) = .ok ms ∧
      ∀ db, stepFn ds fc fb db i =
        if keyMem db p c then (db, 0)
        else ({ profiles := db.profiles ++ [mkProfile p c f],
                measurements := db.measurements ++ ms }, ms.length) := by
  cases hid : extractIdentity ds i with
  | error u => cases u; left; intro db; simp [stepFn, stepBody, hid]
  | ok idv =>
    cases idv with
    | none => left; intro db; simp [stepFn, stepBody, hid]
    | some pc =>
      obtain ⟨p, c⟩ := pc
      cases hf : extractFields ds i with
      | error u =>
          cases u; left; intro db
          by_cases hk : keyMem db p c <;> simp [stepFn, stepBody, hid, hf, hk]
      | ok f =>
          rcases txnBody_char p c f fc fb i with htxn | ⟨ms, hbl, htxn⟩
          · left; intro db
            by_cases hk : keyMem db p c <;>
              simp [stepFn, stepBody, hid, hf, hk, htxn db]
          · right
            refine ⟨p, c, f, ms, rfl, rfl, hbl, fun db => ?_⟩
            by_cases hk : keyMem db p c <;>
              simp [stepFn, stepBody, hid, hf, hk, htxn db]

theorem step_cases (ds : Dataset) (fc fb : Nat → Bool) (db : DB) (i : Nat) :
    stepFn ds fc fb db i = (db, 0) ∨
    ∃ prof ms, stepFn ds fc fb db i =
        ({ profiles := db.profiles ++ [prof],
           measurements := db.measurements ++ ms }, ms.length) ∧
      ∀ m ∈ ms, m.pressure ≠ PF.nan := by
  rcases step_char ds fc fb i with hs | ⟨p, c, f, ms, _, _, hbl, hstep⟩
  · exact Or.inl (hs db)
  · by_cases hk : keyMem db p c
    · left; rw [hstep db]; simp [hk]
    · right
      refine ⟨mkProfile p c f, ms, ?_, buildLoop_pressure (p, c) f _ ms hbl⟩
      rw [hstep db]; simp [hk]

theorem keyMem_append_self (l : List Profile) (M : List Meas)
    (p : String) (c : Int) (f : Fields) :
    keyMem { profiles := l ++ [mkProfile p c f], measurements := M } p c = true := by
  simp [keyMem, List.any_append, mkProfile]

theorem step_keyMono (ds : Dataset) (fc fb : Nat → Bool) (db : DB) (i : Nat)
    (p : String) (c : Int) (h : keyMem db p c = true) :
    keyMem (stepFn ds fc fb db i).1 p c = true := by
  rcases step_cases ds fc fb db i with hs | ⟨prof, ms, hs, _⟩ <;> rw [hs]
  · exact h
  · simp only [keyMem, List.any_append] at h ⊢
    simp [h]

theorem processFrom_keyMono (ds : Dataset) (fc fb : Nat → Bool) :
    ∀ (L : List Nat) (db : DB) (p : String) (c : Int),
      keyMem db p c = true →
      keyMem (processFrom ds fc fb db L).1 p c = true := by
  intro L
  induction L with
  | nil => intro db p c h; exact h
  | cons j rest ih =>
      intro db p c h
      exact ih _ p c (step_keyMono ds fc fb db j p c h)

theorem run_settles (ds : Dataset) (fc fb : Nat → Bool) :
    ∀ (L : List Nat) (db : DB) (i : Nat), i ∈ L →
      stepFn ds fc fb (processFrom ds fc fb db L).1 i =
        ((processFrom ds fc fb db L).1, 0) := by
  intro L
  induction L with
  | nil => intro db i h; simp at h
  | cons j rest ih =>
      intro db i hmem
      rcases List.mem_cons.mp hmem with rfl | hrest
      · rcases step_char ds fc fb i with hs | ⟨p, c, f, ms, _, _, _, hstep⟩
        · exact hs _
        · have h1 : keyMem (stepFn ds fc fb db i).1 p c = true := by
            rw [hstep db]
            by_cases hk : keyMem db p c
            · simp [hk]
            · simp only [hk, if_false, Bool.false_eq_true]
              exact keyMem_append_self _ _ p c f
          have h2 : keyMem (processFrom ds fc fb (stepFn ds fc fb db i).1 rest).1 p c = true :=
            processFrom_keyMono ds fc fb rest _ p c h1
          have hgoal : processFrom ds fc fb db (i :: rest) =
              ((processFrom ds fc fb (stepFn ds fc fb db i).1 rest).1,
                (stepFn ds fc fb db i).2 +
                  (processFrom ds fc fb (stepFn ds fc fb db i).1 rest).2) := rfl
          rw [hgoal, hstep _]
          simp [h2]
      · exact ih _ i hrest

theorem processFrom_id (ds : Dataset) (fc fb : Nat → Bool) :
    ∀ (L : List Nat) (db : DB),
      (∀ i ∈ L, stepFn ds fc fb db i = (db, 0)) →
      processFrom ds fc fb db L = (db, 0) := by
  intro L
  induction L with
  | nil => intro db _; rfl
  | cons j rest ih =>
      intro db h
      have hj : stepFn ds fc fb db j = (db, 0) := h j (by simp)
      have hrest := ih db (fun i hi => h i (by simp [hi]))
      show ((processFrom ds fc fb (stepFn ds fc fb db j).1 rest).1,
        (stepFn ds fc fb db j).2 + (processFrom ds fc fb (stepFn ds fc fb db j).1 rest).2) = (db, 0)
      rw [hj]
      simp [hrest]

theorem step_failCreate (ds : Dataset) (fc fb : Nat → Bool) (db : DB)
    (i : Nat) (h : fc i = true) : stepFn ds fc fb db i = (db, 0) := by
  cases hid : extractIdentity ds i with
  | error u => cases u; simp [stepFn, stepBody, hid]
  | ok idv =>
    cases idv with
    | none => simp [stepFn, stepBody, hid]
    | some pc =>
        obtain ⟨p, c⟩ := pc
        by_cases hk : keyMem db p c
        · simp [stepFn, stepBody, hid, hk]
        · cases hf : extractFields ds i with
          | error u => cases u; simp [stepFn, stepBody, hid, hk, hf]
          | ok f => simp [stepFn, stepBody, txnBody, hid, hk, hf, h]

/-- Claim C1: the ingestion path is idempotent.  First, whenever the
decoded `(platform_number, cycle_number)` pair of a profile index is
already present in the store, the per-profile step is a pure skip: the
store is unchanged and no measurement is counted.  Second, running the
whole per-file profile loop a second time over the store produced by the
first run changes nothing and counts zero new measurements. -/
theorem c1_idempotent (ds : Dataset) (fc fb : Nat → Bool) (db : DB) :
    (∀ i p c, extractIdentity ds i = .ok (some (p, c)) →
      keyMem db p c = true → stepFn ds fc fb db i = (db, 0)) ∧
    processProfiles ds fc fb (processProfiles ds fc fb db).1 =
      ((processProfiles ds fc fb db).1, 0) := by
  constructor
  · intro i p c hid hkey
    simp [stepFn, stepBody, hid, hkey]
  · exact processFrom_id ds fc fb _ _
      (fun i hi => run_settles ds fc fb (List.range (nProfiles ds)) db i hi)

/-- Witness for C1: a store already holding profile `("190", 3)` is left
untouched by the step that re-reads that profile from `dsNanPres`. -/
theorem c1_idempotent_witness :
    stepFn dsNanPres noFail noFail
        { profiles := [mkProfile "190" 3 fieldsNanPres], measurements := [] } 0 =
      ({ profiles := [mkProfile "190" 3 fieldsNanPres], measurements := [] }, 0) :=
  (c1_idempotent dsNanPres noFail noFail
    { profiles := [mkProfile "190" 3 fieldsNanPres], measurements := [] }).1
    0 "190" 3 rfl rfl

/-- Claim C2: the per-profile persistence is all-or-nothing — one step
either leaves the store exactly as it was, or appends the complete
profile header together with its complete measurement batch (returning
that batch's size); and when the header insert fails, the whole file
loop degrades to processing the remaining profile indices only, with
the rolled-back profile contributing nothing. -/
theorem c2_atomic (ds : Dataset) (fc fb : Nat → Bool) (db : DB) (i : Nat)
    (rest : List Nat) :
    (stepFn ds fc fb db i = (db, 0) ∨
      ∃ prof ms, stepFn ds fc fb db i =
        ({ profiles := db.profiles ++ [prof],
           measurements := db.measurements ++ ms }, ms.length)) ∧
    (fc i = true →
      processFrom ds fc fb db (i :: rest) = processFrom ds fc fb db rest) := by
  constructor
  · rcases step_cases ds fc fb db i with h | ⟨prof, ms, h, _⟩
    · exact Or.inl h
    · exact Or.inr ⟨prof, ms, h⟩
  · intro hfc
    have hstep := step_failCreate ds fc fb db i hfc
    have hunfold : processFrom ds fc fb db (i :: rest) =
        ((processFrom ds fc fb (stepFn ds fc fb db i).1 rest).1,
          (stepFn ds fc fb db i).2 +
            (processFrom ds fc fb (stepFn ds fc fb db i).1 rest).2) := rfl
    rw [hunfold, hstep]
    simp

/-- Witness for C2 at a failing header insert on `dsNanPres`. -/
theorem c2_atomic_witness :
    processFrom dsNanPres allFailCreate noFail emptyDB (0 :: []) =
      processFrom dsNanPres allFailCreate noFail emptyDB [] :=
  (c2_atomic dsNanPres allFailCreate noFail emptyDB 0 []).2 rfl

/-- Claim C4: the non-NaN-pressure invariant of the measurement table is
preserved by the whole profile loop: if every stored measurement has a
non-NaN pressure, then after ingesting any profile indices of any
dataset every stored measurement still has a non-NaN pressure — levels
with NaN pressure are never stored. -/
theorem c4_pressure (ds : Dataset) (fc fb : Nat → Bool) (L : List Nat) :
    ∀ (db : DB), (∀ m ∈ db.measurements, m.pressure ≠ PF.nan) →
      ∀ m ∈ (processFrom ds fc fb db L).1.measurements, m.pressure ≠ PF.nan := by
  induction L with
  | nil => intro db hdb; exact hdb
  | cons j rest ih =>
      intro db hdb
      have hstep : ∀ m ∈ (stepFn ds fc fb db j).1.measurements,
          m.pressure ≠ PF.nan := by
        rcases step_cases ds fc fb db j with h | ⟨prof, ms, h, hms⟩ <;> rw [h]
        · exact hdb
        · intro m hm
          rcases List.mem_append.mp hm with h1 | h2
          · exact hdb m h1
          · exact hms m h2
      exact ih (stepFn ds fc fb db j).1 hstep

/-- Witness for C4 at a concrete stored measurement. -/
theorem c4_pressure_witness :
    (Meas.mk ("190", 3) (PF.fin 5) none none none none "9" "9" "9").pressure ≠
      PF.nan :=
  c4_pressure dsNanPres noFail noFail [0]
    { profiles := [],
      measurements :=
        [Meas.mk ("190", 3) (PF.fin 5) none none none none "9" "9" "9"] }
    (by decide)
    (Meas.mk ("190", 3) (PF.fin 5) none none none none "9" "9" "9")
    (by
      have h : (processFrom dsNanPres noFail noFail
          { profiles := [],
            measurements :=
              [Meas.mk ("190", 3) (PF.fin 5) none none none none "9" "9" "9"] }
          [0]).1.measurements =
          [Meas.mk ("190", 3) (PF.fin 5) none none none none "9" "9" "9"] := rfl
      rw [h]
      simp)

theorem buildLoop_allnan (key : String × Int) (f : Fields)
    (hnan : ∀ e ∈ f.pres_arr, e = Elem.fl PF.nan) :
    ∀ L : List Nat, (∀ l ∈ L, l < f.pres_arr.length) →
      buildLoop key f L = .ok [] := by
  intro L
  induction L with
  | nil => intro _; rfl
  | cons l rest ih =>
      intro hbound
      have hlt : l < f.pres_arr.length := hbound l (by simp)
      have he : f.pres_arr.get? l = some (f.pres_arr.get ⟨l, hlt⟩) :=
        List.get?_eq_get hlt
      have hmem : f.pres_arr.get ⟨l, hlt⟩ ∈ f.pres_arr := List.get_mem _ _ _
      have hval := hnan _ hmem
      simp only [buildLoop, getE, he, hval, isnanE, PF.isNanB, exceptBind_ok,
        if_true]
      exact ih (fun x hx => hbound x (by simp [hx]))

/-- Claim C10: a profile whose pressure array is entirely NaN is still
persisted as a header row with zero measurement rows and a zero
contribution to the measurement count, and re-running the same profile
index against the resulting store is then a duplicate skip. -/
theorem c10_header_only (ds : Dataset) (fc fb : Nat → Bool) (db : DB)
    (i : Nat) (p : String) (c : Int) (f : Fields)
    (hid : extractIdentity ds i = .ok (some (p, c)))
    (hkey : keyMem db p c = false)
    (hf : extractFields ds i = .ok f)
    (hfc : fc i = false)
    (hnanarr : ∀ e ∈ f.pres_arr, e = Elem.fl PF.nan) :
    stepFn ds fc fb db i =
      ({ profiles := db.profiles ++ [mkProfile p c f],
         measurements := db.measurements }, 0) ∧
    stepFn ds fc fb
        { profiles := db.profiles ++ [mkProfile p c f],
          measurements := db.measurements } i =
      ({ profiles := db.profiles ++ [mkProfile p c f],
         measurements := db.measurements }, 0) := by
  have hbl : buildLoop (p, c) f (List.range f.pres_arr.length) = .ok [] :=
    buildLoop_allnan (p, c) f hnanarr _ (fun l hl => List.mem_range.mp hl)
  constructor
  · simp [stepFn, stepBody, hid, hkey, hf, txnBody, hfc, hbl]
  · have hk2 : keyMem (DB.mk (db.profiles ++ [mkProfile p c f])
        db.measurements) p c = true :=
      keyMem_append_self db.profiles db.measurements p c f
    simp [stepFn, stepBody, hid, hk2]

/-- Witness for C10 on `dsNanPres` from the empty store. -/
theorem c10_header_only_witness :
    stepFn dsNanPres noFail noFail emptyDB 0 =
      ({ profiles := emptyDB.profiles ++ [mkProfile "190" 3 fieldsNanPres],
         measurements := emptyDB.measurements }, 0) ∧
    stepFn dsNanPres noFail noFail
        { profiles := emptyDB.profiles ++ [mkProfile "190" 3 fieldsNanPres],
          measurements := emptyDB.measurements } 0 =
      ({ profiles := emptyDB.profiles ++ [mkProfile "190" 3 fieldsNanPres],
         measurements := emptyDB.measurements }, 0) :=
  c10_header_only dsNanPres noFail noFail emptyDB 0 "190" 3 fieldsNanPres
    rfl rfl rfl rfl (by simp [fieldsNanPres])

/-- Claim C6 counterexample: `dsNoLat` decodes a valid identity
`("191", 5)` but carries no `LATITUDE` variable; the profile is
skipped — nothing is persisted — rather than stored with a degraded
latitude. -/
theorem c6_missing_var_cex :
    extractIdentity dsNoLat 0 = .ok (some ("191", 5)) ∧
      stepFn dsNoLat noFail noFail emptyDB 0 = (emptyDB, 0) :=
  ⟨rfl, rfl⟩

/-- Claim C6 (amended): a malformed non-identity *value* degrades to its
typed missing-marker default and the profile is still persisted
(`dsDegraded` at index 1: undersized numeric latitude/longitude degrade
to NaN, an undecodable timestamp degrades to absent, an undersized
`DATA_MODE` degrades to Real-Time `"R"`, a missing pressure array
degrades to the length-one NaN default) — but a non-identity *variable
missing from the dataset* (here `LATITUDE`) raises, and that profile
index is skipped without persisting anything. -/
theorem c6_degradation :
    (∀ (ds : Dataset) (fc fb : Nat → Bool) (db : DB) (i : Nat) p c,
      extractIdentity ds i = .ok (some (p, c)) → keyMem db p c = false →
      ds.vars "LATITUDE" = none → stepFn ds fc fb db i = (db, 0)) ∧
    (∀ (fc fb : Nat → Bool) (db : DB), keyMem db "192" 2 = false →
      fc 1 = false →
      stepFn dsDegraded fc fb db 1 =
        ({ profiles := db.profiles ++ [mkProfile "192" 2 fieldsDegraded],
           measurements := db.measurements }, 0)) := by
  constructor
  · intro ds fc fb db i p c hid hkey hlat
    simp [stepFn, stepBody, hid, hkey, extractFields, getVar, hlat]
  · intro fc fb db hkey hfc
    have hid : extractIdentity dsDegraded 1 = .ok (some ("192", 2)) := rfl
    have hf : extractFields dsDegraded 1 = .ok fieldsDegraded := rfl
    have hbl : buildLoop ("192", 2) fieldsDegraded
        (List.range fieldsDegraded.pres_arr.length) = .ok [] := rfl
    simp [stepFn, stepBody, hid, hkey, hf, txnBody, hfc, hbl]

/-- Witness for C6 at index 0 of `dsNoLat` and index 1 of `dsDegraded`. -/
theorem c6_degradation_witness :
    stepFn dsNoLat noFail noFail emptyDB 0 = (emptyDB, 0) ∧
    stepFn dsDegraded noFail noFail emptyDB 1 =
      ({ profiles := emptyDB.profiles ++ [mkProfile "192" 2 fieldsDegraded],
         measurements := emptyDB.measurements }, 0) :=
  ⟨c6_degradation.1 dsNoLat noFail noFail emptyDB 0 "191" 5 rfl rfl rfl,
   c6_degradation.2 noFail noFail emptyDB rfl rfl⟩

theorem processUrlList_downloads (net : Net) (fc fb : Nat → Bool) :
    ∀ (urls : List String) (db : DB),
      (processUrlList net fc fb db urls).downloads =
        urls.filter urlProfPat := by
  intro urls
  induction urls with
  | nil => intro db; rfl
  | cons u rest ih =>
      intro db
      cases hp : urlProfPat u with
      | false => simp [processUrlList, hp, ih, List.filter_cons]
      | true =>
          cases hd : net.download u with
          | none => simp [processUrlList, hp, hd, ih, List.filter_cons]
          | some content => simp [processUrlList, hp, hd, ih, List.filter_cons]

/-- Claim C5 (amended): a url ending in `.nc` is downloaded and
processed only when it also matches the coordinator's profile-file
filter (`"_prof.nc"` or `"/profiles/"` as a substring); a plain `.nc`
url outside that filter yields zero with no download at all.  A url
ending in `/` triggers the directory crawl and downloads exactly the
discovered urls that match the filter; a failed crawl yields zero with
no download.  Any other url shape yields zero with no side effects. -/
theorem c5_coordinator (net : Net) (fc fb : Nat → Bool) (db : DB)
    (url : String) :
    (strEndsWith url ".nc" = true →
      ((coordinate_argo_ingestion net fc fb db url).downloads =
        (if urlProfPat url then [url] else [])) ∧
      (urlProfPat url = false →
        coordinate_argo_ingestion net fc fb db url =
          { downloads := [], db := db, total := 0 }) ∧
      (∀ content, urlProfPat url = true → net.download url = some content →
        coordinate_argo_ingestion net fc fb db url =
          { downloads := [url],
            db := (process_single_netcdf_file content fc fb db).1,
            total := (process_single_netcdf_file content fc fb db).2 })) ∧
    (strEndsWith url ".nc" = false → strEndsWith url "/" = true →
      (∀ urls, net.crawl url = some urls →
        coordinate_argo_ingestion net fc fb db url =
          processUrlList net fc fb db urls ∧
        (coordinate_argo_ingestion net fc fb db url).downloads =
          urls.filter urlProfPat) ∧
      (net.crawl url = none →
        coordinate_argo_ingestion net fc fb db url =
          { downloads := [], db := db, total := 0 })) ∧
    (strEndsWith url ".nc" = false → strEndsWith url "/" = false →
      coordinate_argo_ingestion net fc fb db url =
        { downloads := [], db := db, total := 0 }) := by
  refine ⟨?_, ?_, ?_⟩
  · intro hnc
    refine ⟨?_, ?_, ?_⟩
    · rw [coordinate_argo_ingestion, if_pos hnc,
        processUrlList_downloads net fc fb [url] db]
      cases hp : urlProfPat url <;> simp [List.filter_cons, hp]
    · intro hp
      rw [coordinate_argo_ingestion, if_pos hnc]
      simp [processUrlList, hp]
    · intro content hp hd
      rw [coordinate_argo_ingestion, if_pos hnc]
      simp [processUrlList, hp, hd]
  · intro hnc hsl
    constructor
    · intro urls hcrawl
      constructor
      · rw [coordinate_argo_ingestion, if_neg (by simp [hnc]), if_pos hsl,
          hcrawl]
      · rw [coordinate_argo_ingestion, if_neg (by simp [hnc]), if_pos hsl,
          hcrawl]
        exact processUrlList_downloads net fc fb urls db
    · intro hcrawl
      rw [coordinate_argo_ingestion, if_neg (by simp [hnc]), if_pos hsl,
        hcrawl]
  · intro hnc hsl
    rw [coordinate_argo_ingestion, if_neg (by simp [hnc]),
      if_neg (by simp [hsl])]

/-- Witness for C5 on a url of unsupported shape. -/
theorem c5_coordinator_witness :
    coordinate_argo_ingestion netConst noFail noFail emptyDB
        "http://example.com/other.txt" =
      { downloads := [], db := emptyDB, total := 0 } :=
  (c5_coordinator netConst noFail noFail emptyDB
    "http://example.com/other.txt").2.2 rfl rfl

/-- Claim C5 counterexample: the plain profile url
`http://example.com/cast.nc` ends in `.nc`, yet the coordinator
attempts no download and returns zero leaving the store untouched —
although the payload the network would have served (`dsNanPres`) does
store a profile when processed. -/
theorem c5_plain_nc_cex :
    coordinate_argo_ingestion netConst noFail noFail emptyDB
        "http://example.com/cast.nc" =
      { downloads := [], db := emptyDB, total := 0 } ∧
    (process_single_netcdf_file (some dsNanPres) noFail noFail
        emptyDB).1.profiles ≠ [] := by
  constructor
  · rfl
  · have h : (process_single_netcdf_file (some dsNanPres) noFail noFail
        emptyDB).1.profiles = [mkProfile "190" 3 fieldsNanPres] := rfl
    rw [h]
    simp

theorem hav_core_bounds (p1 p2 d : ℝ) :
    0 ≤ Real.sin ((p2 - p1) / 2) ^ 2 +
        Real.cos p1 * Real.cos p2 * Real.sin (d / 2) ^ 2 ∧
      Real.sin ((p2 - p1) / 2) ^ 2 +
        Real.cos p1 * Real.cos p2 * Real.sin (d / 2) ^ 2 ≤ 1 := by
  have h1 : Real.sin ((p2 - p1) / 2) ^ 2 = 1 / 2 - Real.cos (p2 - p1) / 2 := by
    rw [Real.sin_sq_eq_half_sub]
    rw [show 2 * ((p2 - p1) / 2) = p2 - p1 by ring]
  have h2 : Real.sin (d / 2) ^ 2 = 1 / 2 - Real.cos d / 2 := by
    rw [Real.sin_sq_eq_half_sub]
    rw [show 2 * (d / 2) = d by ring]
  have h3 : Real.cos (p2 - p1) =
      Real.cos p2 * Real.cos p1 + Real.sin p2 * Real.sin p1 := Real.cos_sub p2 p1
  have hp1 : Real.sin p1 ^ 2 + Real.cos p1 ^ 2 = 1 := Real.sin_sq_add_cos_sq p1
  have hp2 : Real.sin p2 ^ 2 + Real.cos p2 ^ 2 = 1 := Real.sin_sq_add_cos_sq p2
  have hub : Real.cos p1 * Real.cos p2 * Real.cos d ≤
      |Real.cos p1 * Real.cos p2| := by
    calc Real.cos p1 * Real.cos p2 * Real.cos d
        ≤ |Real.cos p1 * Real.cos p2 * Real.cos d| := le_abs_self _
      _ = |Real.cos p1 * Real.cos p2| * |Real.cos d| := abs_mul _ _
      _ ≤ |Real.cos p1 * Real.cos p2| * 1 :=
          mul_le_mul_of_nonneg_left (Real.abs_cos_le_one d) (abs_nonneg _)
      _ = |Real.cos p1 * Real.cos p2| := mul_one _
  have hlb : -|Real.cos p1 * Real.cos p2| ≤
      Real.cos p1 * Real.cos p2 * Real.cos d := by
    have : -(Real.cos p1 * Real.cos p2 * Real.cos d) ≤
        |Real.cos p1 * Real.cos p2| := by
      calc -(Real.cos p1 * Real.cos p2 * Real.cos d)
          ≤ |Real.cos p1 * Real.cos p2 * Real.cos d| := neg_le_abs _
        _ = |Real.cos p1 * Real.cos p2| * |Real.cos d| := abs_mul _ _
        _ ≤ |Real.cos p1 * Real.cos p2| * 1 :=
            mul_le_mul_of_nonneg_left (Real.abs_cos_le_one d) (abs_nonneg _)
        _ = |Real.cos p1 * Real.cos p2| := mul_one _
    linarith
  have hs_ub : Real.sin p1 * Real.sin p2 ≤ |Real.sin p1 * Real.sin p2| :=
    le_abs_self _
  have hs_lb : -|Real.sin p1 * Real.sin p2| ≤ Real.sin p1 * Real.sin p2 :=
    neg_abs_le _
  have hsum : |Real.cos p1 * Real.cos p2| + |Real.sin p1 * Real.sin p2| ≤ 1 := by
    rw [abs_mul, abs_mul]
    have e1 : 2 * (|Real.cos p1| * |Real.cos p2|) ≤
        |Real.cos p1| ^ 2 + |Real.cos p2| ^ 2 := by
      nlinarith [sq_nonneg (|Real.cos p1| - |Real.cos p2|)]
    have e2 : 2 * (|Real.sin p1| * |Real.sin p2|) ≤
        |Real.sin p1| ^ 2 + |Real.sin p2| ^ 2 := by
      nlinarith [sq_nonneg (|Real.sin p1| - |Real.sin p2|)]
    rw [sq_abs, sq_abs] at e1
    rw [sq_abs, sq_abs] at e2
    linarith
  constructor
  · rw [h1, h2, h3]
    nlinarith [hub, hs_ub, hsum]
  · rw [h1, h2, h3]
    nlinarith [hlb, hs_lb, hsum]

theorem havReal_nonneg (x y la lo : ℚ) : 0 ≤ havReal x y la lo := by
  unfold havReal
  have h1 : (0:ℝ) ≤ 2 * 6371 := by norm_num
  exact mul_nonneg h1 (Real.arcsin_nonneg.mpr (Real.sqrt_nonneg _))

theorem RF.sqrt_fin_of_nonneg {x : ℝ} (h : 0 ≤ x) :
    RF.sqrt (.fin x) = .fin (Real.sqrt x) := by
  simp only [RF.sqrt]
  rw [if_neg (not_lt.mpr h)]

theorem RF.arcsin_fin_of_mem {x : ℝ} (h0 : -1 ≤ x) (h1 : x ≤ 1) :
    RF.arcsin (.fin x) = .fin (Real.arcsin x) := by
  simp only [RF.arcsin]
  rw [if_neg]
  rintro (h | h) <;> linarith

theorem haversine_fin_eq (x y la lo : ℚ) :
    haversine_distance (.fin x) (.fin y) (.fin la) (.fin lo) =
      .fin (havReal x y la lo) := by
  have hb := hav_core_bounds (Real.pi / 180 * (x : ℝ)) (Real.pi / 180 * (la : ℝ))
    (Real.pi / 180 * ((lo : ℝ) - (y : ℝ)))
  rw [show (Real.pi / 180 * (la : ℝ) - Real.pi / 180 * (x : ℝ)) / 2 =
      Real.pi / 180 * ((la : ℝ) - (x : ℝ)) / 2 by ring] at hb
  obtain ⟨hA0, hA1⟩ := hb
  set A := Real.sin (Real.pi / 180 * ((la : ℝ) - (x : ℝ)) / 2) ^ 2 +
      Real.cos (Real.pi / 180 * (x : ℝ)) * Real.cos (Real.pi / 180 * (la : ℝ)) *
        Real.sin (Real.pi / 180 * ((lo : ℝ) - (y : ℝ)) / 2) ^ 2 with hAdef
  have hsq0 : (0 : ℝ) ≤ Real.sqrt A := Real.sqrt_nonneg A
  have h1 : (-1 : ℝ) ≤ Real.sqrt A := by linarith
  have h2 : Real.sqrt A ≤ 1 := by
    calc Real.sqrt A ≤ Real.sqrt 1 := Real.sqrt_le_sqrt hA1
      _ = 1 := Real.sqrt_one
  simp only [haversine_distance, PF.toRF, RF.sub, RF.radians, RF.cmulPos,
    RF.half, RF.sin, RF.cos, RF.mul, RF.add, RF.sq, ← hAdef]
  rw [RF.sqrt_fin_of_nonneg hA0, RF.arcsin_fin_of_mem h1 h2]
  rfl

theorem RF.ltP_nan_left (m : RF) : ¬ RF.ltP .nan m := by
  cases m <;> simp [RF.ltP]

theorem RF.ltP_fin_fin (a b : ℝ) : RF.ltP (.fin a) (.fin b) = (a < b) := rfl

theorem haversine_nonfin (lat lon : PF) (la lo : ℚ)
    (h : lat.finB = false ∨ lon.finB = false) :
    haversine_distance lat lon (.fin la) (.fin lo) = RF.nan := by
  cases lat <;> cases lon <;>
    simp_all [haversine_distance, PF.toRF, PF.finB, RF.sub, RF.radians,
      RF.cmulPos, RF.half, RF.sin, RF.cos, RF.mul, RF.add, RF.sq, RF.sqrt,
      RF.arcsin]

theorem oceanLoop_nonfin (lat lon : PF)
    (h : lat.finB = false ∨ lon.finB = false) :
    ∀ (l : List (String × ℚ × ℚ)) (acc : String × RF),
      oceanLoop lat lon l acc = acc := by
  intro l
  induction l with
  | nil => intro acc; rfl
  | cons e rest ih =>
      intro acc
      obtain ⟨name, cla, clo⟩ := e
      obtain ⟨nearest, mind⟩ := acc
      simp only [oceanLoop, haversine_nonfin lat lon cla clo h,
        if_neg (RF.ltP_nan_left mind)]
      exact ih (nearest, mind)

/-- The haversine distance from `(x, y)` to a table entry. -/
noncomputable def distR (x y : ℚ) (e : String × ℚ × ℚ) : ℝ :=
  havReal x y e.2.1 e.2.2

theorem oceanLoop_fin_keep (x y : ℚ) :
    ∀ (l : List (String × ℚ × ℚ)) (an : String) (am : ℝ),
      (∀ e ∈ l, ¬ distR x y e < am) →
      oceanLoop (.fin x) (.fin y) l (an, .fin am) = (an, .fin am) := by
  intro l
  induction l with
  | nil => intro an am _; rfl
  | cons e rest ih =>
      intro an am h
      obtain ⟨name, cla, clo⟩ := e
      have hd : ¬ RF.ltP (haversine_distance (.fin x) (.fin y) (.fin cla)
          (.fin clo)) (.fin am) := by
        rw [haversine_fin_eq]
        exact h (name, cla, clo) (by simp)
      simp only [oceanLoop, if_neg hd]
      exact ih an am (fun e he => h e (by simp [he]))

theorem oceanLoop_fin_improve (x y : ℚ) :
    ∀ (l : List (String × ℚ × ℚ)) (an : String) (am : ℝ),
      (∃ e ∈ l, distR x y e < am) →
      ∃ j e, l.get? j = some e ∧
        oceanLoop (.fin x) (.fin y) l (an, .fin am) = (e.1, .fin (distR x y e)) ∧
        (∀ k e', l.get? k = some e' → distR x y e ≤ distR x y e') ∧
        (∀ k e', k < j → l.get? k = some e' → distR x y e < distR x y e') ∧
        distR x y e < am := by
  intro l
  induction l with
  | nil => intro an am h; simp at h
  | cons e0 rest ih =>
      intro an am h
      obtain ⟨name0, cla0, clo0⟩ := e0
      have hltP : ∀ b : ℝ, RF.ltP (haversine_distance (.fin x) (.fin y)
          (.fin cla0) (.fin clo0)) (.fin b) ↔ distR x y (name0, cla0, clo0) < b := by
        intro b
        rw [haversine_fin_eq]
        exact Iff.rfl
      by_cases h0 : distR x y (name0, cla0, clo0) < am
      · have hstep : oceanLoop (.fin x) (.fin y)
            ((name0, cla0, clo0) :: rest) (an, .fin am) =
            oceanLoop (.fin x) (.fin y) rest
              (name0, .fin (distR x y (name0, cla0, clo0))) := by
          simp only [oceanLoop, haversine_fin_eq, RF.ltP_fin_fin]
          rw [if_pos (show havReal x y cla0 clo0 < am from h0)]
          rfl
        by_cases hrest : ∃ e ∈ rest, distR x y e < distR x y (name0, cla0, clo0)
        · obtain ⟨j', e, hget, hloop, hmin, hfirst, hlt⟩ :=
            ih name0 (distR x y (name0, cla0, clo0)) hrest
          refine ⟨j' + 1, e, by simpa using hget, by rw [hstep]; exact hloop,
            ?_, ?_, lt_trans hlt h0⟩
          · intro k e' hk
            cases k with
            | zero =>
                simp only [List.get?] at hk
                cases hk
                exact le_of_lt hlt
            | succ k' => exact hmin k' e' (by simpa using hk)
          · intro k e' hklt hk
            cases k with
            | zero =>
                simp only [List.get?] at hk
                cases hk
                exact hlt
            | succ k' =>
                exact hfirst k' e' (by omega) (by simpa using hk)
        · push_neg at hrest
          have hkeep := oceanLoop_fin_keep x y rest name0
            (distR x y (name0, cla0, clo0)) (fun e he => not_lt.mpr (hrest e he))
          refine ⟨0, (name0, cla0, clo0), rfl, by rw [hstep]; exact hkeep,
            ?_, ?_, h0⟩
          · intro k e' hk
            cases k with
            | zero =>
                simp only [List.get?] at hk
                cases hk
                exact le_refl _
            | succ k' =>
                exact hrest e' (List.get?_mem (by simpa using hk))
          · intro k e' hklt hk
            omega
      · have hstep : oceanLoop (.fin x) (.fin y)
            ((name0, cla0, clo0) :: rest) (an, .fin am) =
            oceanLoop (.fin x) (.fin y) rest (an, .fin am) := by
          simp only [oceanLoop, haversine_fin_eq, RF.ltP_fin_fin]
          rw [if_neg (show ¬ havReal x y cla0 clo0 < am from h0)]
        have hrest : ∃ e ∈ rest, distR x y e < am := by
          obtain ⟨e, he, helt⟩ := h
          rcases List.mem_cons.mp he with rfl | hmem
          · exact absurd helt h0
          · exact ⟨e, hmem, helt⟩
        obtain ⟨j', e, hget, hloop, hmin, hfirst, hlt⟩ := ih an am hrest
        have hle0 : distR x y e ≤ distR x y (name0, cla0, clo0) :=
          le_of_lt (lt_of_lt_of_le hlt (not_lt.mp h0))
        refine ⟨j' + 1, e, by simpa using hget, by rw [hstep]; exact hloop,
          ?_, ?_, hlt⟩
        · intro k e' hk
          cases k with
          | zero =>
              simp only [List.get?] at hk
              cases hk
              exact hle0
          | succ k' => exact hmin k' e' (by simpa using hk)
        · intro k e' hklt hk
          cases k with
          | zero =>
              simp only [List.get?] at hk
              cases hk
              exact lt_of_lt_of_le hlt (not_lt.mp h0)
          | succ k' =>
              exact hfirst k' e' (by omega) (by simpa using hk)

theorem RF.ltP_fin_inf (a : ℝ) : RF.ltP (.fin a) .inf := trivial

/-- The tail of `OCEAN_COORDS` after its first (Pacific) entry. -/
theorem ocean_tail_named : OCEAN_COORDS =
    ("Pacific Ocean", 0, -160) ::
      [("Atlantic Ocean", 0, -30), ("Indian Ocean", -20, 80),
       ("Southern Ocean", -60, 0), ("Arctic Ocean", 75, 0),
       ("Arabian Sea", 15, 65), ("Bay of Bengal", 15, 90),
       ("Mediterranean Sea", 35, 18), ("Caribbean Sea", 15, -75),
       ("Bering Sea", 60, -180)] := rfl

theorem oceanLoop_step (lat lon : PF) (name : String) (cla clo : ℚ)
    (rest : List (String × ℚ × ℚ)) (an : String) (am : RF) :
    oceanLoop lat lon ((name, cla, clo) :: rest) (an, am) =
      oceanLoop lat lon rest
        (if RF.ltP (haversine_distance lat lon (.fin cla) (.fin clo)) am
         then (name, haversine_distance lat lon (.fin cla) (.fin clo))
         else (an, am)) := rfl

theorem getNearest_fin (x y : ℚ) :
    nearestBySpec x y (get_nearest_ocean (.fin x) (.fin y)) ∧
      get_nearest_ocean (.fin x) (.fin y) ≠ "Unknown" := by
  have hno : ∀ e ∈ [(("Atlantic Ocean" : String), (0 : ℚ), (-30 : ℚ)),
      ("Indian Ocean", -20, 80), ("Southern Ocean", -60, 0),
      ("Arctic Ocean", 75, 0), ("Arabian Sea", 15, 65),
      ("Bay of Bengal", 15, 90), ("Mediterranean Sea", 35, 18),
      ("Caribbean Sea", 15, -75), ("Bering Sea", 60, -180)],
      e.1 ≠ "Unknown" := by decide
  have hunfold : get_nearest_ocean (.fin x) (.fin y) =
      (oceanLoop (.fin x) (.fin y)
        [("Atlantic Ocean", 0, -30), ("Indian Ocean", -20, 80),
         ("Southern Ocean", -60, 0), ("Arctic Ocean", 75, 0),
         ("Arabian Sea", 15, 65), ("Bay of Bengal", 15, 90),
         ("Mediterranean Sea", 35, 18), ("Caribbean Sea", 15, -75),
         ("Bering Sea", 60, -180)]
        ("Pacific Ocean", .fin (havReal x y 0 (-160)))).1 := by
    have hnan : ((PF.fin x).isNanB || (PF.fin y).isNanB) = false := rfl
    rw [get_nearest_ocean, hnan]
    simp only [Bool.false_eq_true, if_false]
    rw [ocean_tail_named, oceanLoop_step, haversine_fin_eq,
      if_pos (RF.ltP_fin_inf _)]
  by_cases himp : ∃ e ∈ [(("Atlantic Ocean" : String), (0 : ℚ), (-30 : ℚ)),
      ("Indian Ocean", -20, 80), ("Southern Ocean", -60, 0),
      ("Arctic Ocean", 75, 0), ("Arabian Sea", 15, 65),
      ("Bay of Bengal", 15, 90), ("Mediterranean Sea", 35, 18),
      ("Caribbean Sea", 15, -75), ("Bering Sea", 60, -180)],
      distR x y e < havReal x y 0 (-160)
  · obtain ⟨j', e, hget, hloop, hmin, hfirst, hlt⟩ :=
      oceanLoop_fin_improve x y _ "Pacific Ocean" (havReal x y 0 (-160)) himp
    have hres : get_nearest_ocean (.fin x) (.fin y) = e.1 := by
      rw [hunfold, hloop]
    constructor
    · refine ⟨j' + 1, e, ?_, hres.symm ▸ rfl, ?_, ?_⟩
      · rw [ocean_tail_named]
        simpa using hget
      · intro k e' hk
        rw [ocean_tail_named] at hk
        cases k with
        | zero =>
            simp only [List.get?] at hk
            cases hk
            exact le_of_lt hlt
        | succ k' => exact hmin k' e' (by simpa using hk)
      · intro k e' hklt hk
        rw [ocean_tail_named] at hk
        cases k with
        | zero =>
            simp only [List.get?] at hk
            cases hk
            exact hlt
        | succ k' => exact hfirst k' e' (by omega) (by simpa using hk)
    · rw [hres]
      exact hno e (List.get?_mem hget)
  · push_neg at himp
    have hkeep := oceanLoop_fin_keep x y _ "Pacific Ocean" (havReal x y 0 (-160))
      (fun e he => not_lt.mpr (himp e he))
    have hres : get_nearest_ocean (.fin x) (.fin y) = "Pacific Ocean" := by
      rw [hunfold, hkeep]
    constructor
    · refine ⟨0, ("Pacific Ocean", 0, -160), rfl, by rw [hres], ?_, ?_⟩
      · intro k e' hk
        rw [ocean_tail_named] at hk
        cases k with
        | zero =>
            simp only [List.get?] at hk
            cases hk
            exact le_refl _
        | succ k' =>
            exact himp e' (List.get?_mem (by simpa using hk))
      · intro k e' hklt hk
        omega
    · rw [hres]
      decide

/-- Claim C8: `get_nearest_ocean` answers `"Unknown"` exactly on
non-finite input (NaN through the explicit check, infinities because
every haversine distance degenerates to NaN and the minimum search never
fires), and on finite coordinates it answers the name of the nearest
entry of `OCEAN_COORDS` under the haversine distance on Earth radius
6371 km, ties broken by table iteration order. -/
theorem c8_geo_resolver (lat lon : PF) :
    (get_nearest_ocean lat lon = "Unknown" ↔
      ¬ (lat.finB = true ∧ lon.finB = true)) ∧
    (∀ x y, lat = .fin x → lon = .fin y →
      nearestBySpec x y (get_nearest_ocean lat lon)) := by
  constructor
  · constructor
    · intro hu hfin
      obtain ⟨hlat, hlon⟩ := hfin
      obtain ⟨x, rfl⟩ : ∃ q, lat = PF.fin q := by
        cases lat <;> simp_all [PF.finB] <;> exact ⟨_, rfl⟩
      obtain ⟨y, rfl⟩ : ∃ q, lon = PF.fin q := by
        cases lon <;> simp_all [PF.finB] <;> exact ⟨_, rfl⟩
      exact (getNearest_fin x y).2 hu
    · intro hnf
      by_cases hn : (lat.isNanB || lon.isNanB) = true
      · rw [get_nearest_ocean, hn, if_pos rfl]
      · have hfb : lat.finB = false ∨ lon.finB = false := by
          cases hlatb : lat.finB with
          | false => exact Or.inl rfl
          | true =>
            cases hlonb : lon.finB with
            | false => exact Or.inr rfl
            | true => exact absurd ⟨hlatb, hlonb⟩ hnf
        rw [get_nearest_ocean, if_neg hn,
          oceanLoop_nonfin lat lon hfb OCEAN_COORDS ("Unknown", RF.inf)]
  · intro x y hx hy
    subst hx
    subst hy
    exact (getNearest_fin x y).1

/-- Witness for C8 at the finite point `(0, -160)`. -/
theorem c8_geo_resolver_witness :
    nearestBySpec 0 (-160) (get_nearest_ocean (.fin 0) (.fin (-160))) :=
  (c8_geo_resolver (.fin 0) (.fin (-160))).2 0 (-160) rfl rfl

/-- Claim C9 counterexample: latitude `91` is finite, so it is not
caught by the NaN check; the resolver returns the nearest table entry
(not `"Unknown"`) — here at longitude `0`. -/
theorem c9_lat91_cex :
    get_nearest_ocean (.fin 91) (.fin 0) ≠ "Unknown" :=
  (getNearest_fin 91 0).2

/-- Claim C9 (amended): `(0, -160)` resolves to `"Pacific Ocean"`, and
latitude `91` — being finite — is not treated as invalid: the resolver
returns the nearest table entry, not `"Unknown"` (shown at
longitude `0`). -/
theorem c9_scenarios :
    get_nearest_ocean (.fin 0) (.fin (-160)) = "Pacific Ocean" ∧
      get_nearest_ocean (.fin 91) (.fin 0) ≠ "Unknown" := by
  constructor
  · have hd0 : havReal 0 (-160) 0 (-160) = 0 := by
      unfold havReal
      norm_num [Real.sin_zero, Real.arcsin_zero, Real.sqrt_zero]
    have hnan : ((PF.fin (0 : ℚ)).isNanB || (PF.fin (-160 : ℚ)).isNanB) = false :=
      rfl
    rw [get_nearest_ocean, hnan]
    simp only [Bool.false_eq_true, if_false]
    rw [ocean_tail_named, oceanLoop_step, haversine_fin_eq,
      if_pos (RF.ltP_fin_inf _), hd0]
    rw [oceanLoop_fin_keep 0 (-160) _ "Pacific Ocean" 0
      (fun e _ => not_lt.mpr (havReal_nonneg 0 (-160) e.2.1 e.2.2))]
  · exact (getNearest_fin 91 0).2
